import Mathlib

/-!
Verification of the table/index schema model and the batch-ingestion path of
the Db2 Event Store IoT-analytics repository. The notebooks define the
`IOT_TEMPERATURE` table schema and index specification and invoke the
catalog and ingestion operations of the store (`create_table_with_index`,
`get_table`, `get_names_of_tables`, `batch_insert`); the operations
themselves live behind the `eventstore` client library, so they are modelled
here from the repository specification's component design (§3–§4, §7),
faithful to its words, and the notebook configuration objects are embedded
literally.
-/

set_option maxHeartbeats 1000000

namespace EventStore

/-- Column types of the data model (spec §3). In the source these are the
Spark `StructField` types `IntegerType`, `LongType`, `DoubleType`, etc. -/
inductive ColumnType where
  | Int32
  | Int64
  | Float64
  | String
  | Bool
  | Timestamp
deriving DecidableEq, Repr

/-- A column of a table (spec §3): `StructField(name, type, nullable)` in the
source notebook. -/
structure Column where
  name : String
  type : ColumnType
  nullable : Bool
deriving DecidableEq, Repr

/-- A table schema (source notebook, cell defining `tabSchema`):
table name, ordered columns, sharding-key column names, primary-key column
names. Field names follow the source constructor's keyword arguments. -/
structure TableSchema where
  name : String
  columns : List Column
  sharding_columns : List String
  pk_columns : List String
deriving DecidableEq, Repr

/-- Null placement / direction for an index sort column (source:
`ColumnOrder.DESCENDING_NULLS_LAST` etc.). -/
inductive ColumnOrder where
  | ASCENDING_NULLS_FIRST
  | ASCENDING_NULLS_LAST
  | DESCENDING_NULLS_FIRST
  | DESCENDING_NULLS_LAST
deriving DecidableEq, Repr

/-- One sort column of an index (source: `SortSpecification("ts", ...)`). -/
structure SortSpecification where
  column_name : String
  column_order : ColumnOrder
deriving DecidableEq, Repr

/-- An index specification over a table (source notebook, cell defining
`indexSchema`). Field names follow the source constructor's keyword
arguments. -/
structure IndexSpecification where
  index_name : String
  table_schema : TableSchema
  equal_columns : List String
  sort_columns : List SortSpecification
  include_columns : List String
deriving DecidableEq, Repr

/-- A runtime cell value of a row. Spec §3 gives the value universe by the
column types; `Float64` literals of the notebooks are embedded as exact
rationals (no claim depends on floating-point rounding), and `vNull` is the
SQL null. -/
inductive Value where
  | vInt32 (i : Int)
  | vInt64 (i : Int)
  | vFloat64 (q : Rat)
  | vString (s : String)
  | vBool (b : Bool)
  | vTimestamp (t : Int)
  | vNull
deriving DecidableEq

/-- A row is an ordered tuple of values in the canonical column order
(spec §3). -/
abbrev Row := List Value

/-- A batch is a finite ordered sequence of rows (spec §3). -/
abbrev Batch := List Row

/-- Does a non-null value match the declared column type? -/
def typeMatches : ColumnType → Value → Bool
  | .Int32, .vInt32 _ => true
  | .Int64, .vInt64 _ => true
  | .Float64, .vFloat64 _ => true
  | .String, .vString _ => true
  | .Bool, .vBool _ => true
  | .Timestamp, .vTimestamp _ => true
  | _, _ => false

/-- Modelled from the spec: the row-validation error taxonomy of §4.4 step 2
and §7 (`RowShapeError{row_index}`, `TypeError{row_index, column}`,
`NullConstraintError{row_index, column}`). -/
inductive ValidationError where
  | RowShapeError (row_index : Nat)
  | TypeError (row_index : Nat) (column : String)
  | NullConstraintError (row_index : Nat) (column : String)
deriving DecidableEq, Repr

/-- Modelled from the spec: validation of one cell of row `i` against its
column — null in a non-nullable column and per-column type mismatch
(§4.4 step 2). -/
def cellError (i : Nat) (c : Column) (v : Value) : Option ValidationError :=
  match v with
  | .vNull => if c.nullable then none else some (.NullConstraintError i c.name)
  | _ => if typeMatches c.type v then none else some (.TypeError i c.name)

/-- Modelled from the spec: validation of row `i` against the schema —
arity mismatch yields `RowShapeError`, otherwise every cell is checked
column-wise (§4.4 step 2). -/
def validateRow (s : TableSchema) (i : Nat) (row : Row) : List ValidationError :=
  if row.length = s.columns.length then
    (s.columns.zip row).filterMap (fun p => cellError i p.1 p.2)
  else [.RowShapeError i]

/-- Modelled from the spec: eager validation of the rows numbered from `i`
onward, collecting all violations rather than stopping at the first
(§4.4 step 2). -/
def validateFrom (s : TableSchema) : Nat → Batch → List ValidationError
  | _, [] => []
  | i, r :: rs => validateRow s i r ++ validateFrom s (i + 1) rs

/-- Modelled from the spec: eager validation of a whole batch (§4.4 step 2). -/
def validateBatch (s : TableSchema) (batch : Batch) : List ValidationError :=
  validateFrom s 0 batch

/-- Modelled from the spec: the catalog error taxonomy of §7. -/
inductive CatalogError where
  | DuplicateTable
  | UnknownTable
  | DuplicateIndex
  | InvalidSchema
  | InvalidIndex
deriving DecidableEq, Repr

/-- Modelled from the spec: `TableError` wraps `CatalogError` plus a
rollback-failure case (§7). -/
inductive TableError where
  | catalog (e : CatalogError)
  | rollbackFailure
deriving DecidableEq, Repr

/-- One catalog entry: a registered table together with its registered
indexes (spec §3, `Database.tables`). -/
structure TableEntry where
  schema : TableSchema
  indexes : List IndexSpecification
deriving DecidableEq, Repr

/-- Modelled from the spec: the open database of a session — its name and the
tables in registration order (spec §3 `Database`, §4.1 `list_tables`
registration order). -/
structure Database where
  name : String
  tables : List TableEntry
deriving DecidableEq, Repr

/-- Find the catalog entry of a table name, if registered. -/
def lookupTable (db : Database) (tname : String) : Option TableEntry :=
  db.tables.find? (fun e => e.schema.name == tname)

/-- Modelled from the spec: `list_tables` returns table names in registration
order (§4.1); the notebooks call it `get_names_of_tables`. -/
def list_tables (db : Database) : List String :=
  db.tables.map (fun e => e.schema.name)

/-- Modelled from the spec: `get_table(name)` fails with `UnknownTable` if
absent (§4.1); the notebooks call `ctx.get_table(TABLE_NAME)`. -/
def get_table (db : Database) (tname : String) : Except CatalogError TableSchema :=
  match lookupTable db tname with
  | some e => Except.ok e.schema
  | none => Except.error CatalogError.UnknownTable

/-- Does the schema declare a column of this name? -/
def hasColumn (t : TableSchema) (cname : String) : Bool :=
  t.columns.any (fun c => c.name == cname)

/-- Does the schema declare a non-nullable column of this name? -/
def hasNonNullableColumn (t : TableSchema) (cname : String) : Bool :=
  t.columns.any (fun c => c.name == cname && !c.nullable)

/-- Modelled from the spec: the `TableSchema` invariants of §3 — column names
unique within the table, `pk_columns` a non-empty subset of the columns all
of which are non-nullable, `sharding_columns` a non-empty subset of the
columns. -/
def validSchema (t : TableSchema) : Bool :=
  decide (t.columns.map Column.name).Nodup &&
  !t.pk_columns.isEmpty && t.pk_columns.all (hasNonNullableColumn t) &&
  !t.sharding_columns.isEmpty && t.sharding_columns.all (hasColumn t)

/-- Modelled from the spec: `register_table` fails with `DuplicateTable` if a
table of that name exists in the open database, with `InvalidSchema` if any
§3 invariant is violated; on success the table is appended in registration
order (§4.1). On failure the catalog is returned unchanged (§7: every
mutation is all-or-nothing). -/
def register_table (db : Database) (t : TableSchema) : Database × Option CatalogError :=
  if (lookupTable db t.name).isSome then (db, some CatalogError.DuplicateTable)
  else if !validSchema t then (db, some CatalogError.InvalidSchema)
  else (⟨db.name, db.tables ++ [⟨t, []⟩]⟩, none)

/-- The column names of an index's sort specifications. -/
def sortColumnNames (spec : IndexSpecification) : List String :=
  spec.sort_columns.map SortSpecification.column_name

/-- Are two lists of column names disjoint? -/
def disjointNames (a b : List String) : Bool :=
  a.all (fun x => !(b.contains x))

/-- Modelled from the spec: the table-dependent `IndexSpecification`
invariants of §3 — all referenced columns exist in the table, and the
equality, sort and include columns are pairwise disjoint. -/
def validIndexColumns (t : TableSchema) (spec : IndexSpecification) : Bool :=
  spec.equal_columns.all (hasColumn t) &&
  (sortColumnNames spec).all (hasColumn t) &&
  spec.include_columns.all (hasColumn t) &&
  disjointNames spec.equal_columns (sortColumnNames spec) &&
  disjointNames spec.equal_columns spec.include_columns &&
  disjointNames (sortColumnNames spec) spec.include_columns

/-- Modelled from the spec: an index must filter or order on something — an
index with empty `equality_columns` and empty `sort_columns` is rejected
(§3). This invariant mentions no catalog state. -/
def filtersOrOrders (spec : IndexSpecification) : Bool :=
  !(spec.equal_columns.isEmpty && spec.sort_columns.isEmpty)

/-- All index names registered anywhere in the database (index names are
unique per database, §3). -/
def indexNames (db : Database) : List String :=
  (db.tables.map TableEntry.indexes).flatten.map IndexSpecification.index_name

/-- Append an index specification to the entry of the named table. -/
def addIndexToTable (tables : List TableEntry) (tname : String)
    (spec : IndexSpecification) : List TableEntry :=
  tables.map (fun e =>
    if e.schema.name == tname then ⟨e.schema, e.indexes ++ [spec]⟩ else e)

/-- Modelled from the spec: `register_index` rejects an index that neither
filters nor orders with `InvalidIndex` (a structural invariant needing no
catalog state, checked on the specification object itself), then fails with
`UnknownTable` if the table is not registered, `DuplicateIndex` on a name
collision anywhere in the database, and `InvalidIndex` on the remaining §3
invariant violations (§4.1, §3). On failure the catalog is returned
unchanged (§7). -/
def register_index (db : Database) (spec : IndexSpecification) :
    Database × Option CatalogError :=
  if !filtersOrOrders spec then (db, some CatalogError.InvalidIndex)
  else
    match lookupTable db spec.table_schema.name with
    | none => (db, some CatalogError.UnknownTable)
    | some entry =>
      if (indexNames db).contains spec.index_name then
        (db, some CatalogError.DuplicateIndex)
      else if !validIndexColumns entry.schema spec then
        (db, some CatalogError.InvalidIndex)
      else
        (⟨db.name, addIndexToTable db.tables spec.table_schema.name spec⟩, none)

/-- Modelled from the spec: `drop_table` fails with `UnknownTable` if absent;
otherwise it removes the table and all its indexes atomically (§4.1). -/
def drop_table (db : Database) (tname : String) : Database × Option CatalogError :=
  if (lookupTable db tname).isNone then (db, some CatalogError.UnknownTable)
  else (⟨db.name, db.tables.filter (fun e => !(e.schema.name == tname))⟩, none)

/-- Modelled from the spec: `create_table_with_index` composes table and
index registration as a single logical unit — if index registration fails
after table registration succeeded, the table registration is rolled back so
the catalog is left as before the call (§4.2, all-or-nothing create); the
notebooks call `ctx.create_table_with_index(tabSchema, indexSchema)`. -/
def create_table_with_index (db : Database) (t : TableSchema)
    (spec : IndexSpecification) : Database × Option TableError :=
  match register_table db t with
  | (_, some e) => (db, some (TableError.catalog e))
  | (db1, none) =>
    match register_index db1 spec with
    | (_, some e) =>
      match drop_table db1 t.name with
      | (db2, none) => (db2, some (TableError.catalog e))
      | (_, some _) => (db, some TableError.rollbackFailure)
    | (db2, none) => (db2, none)

/-- Encode an integer injectively into a natural number for hashing. -/
def encInt (i : Int) : Nat :=
  if i < 0 then 2 * i.natAbs + 1 else 2 * i.natAbs

/-- A stable byte-style encoding of a string for hashing. -/
def encString (s : String) : Nat :=
  s.toList.foldl (fun h c => h * 65599 + c.toNat + 1) 7

/-- Modelled from the spec: a stable encoding of one sharding-key value
(§4.3, "a stable hash of the concatenated sharding-key byte encoding"). -/
def encodeValue : Value → Nat
  | .vInt32 i => 13 * encInt i + 1
  | .vInt64 i => 13 * encInt i + 2
  | .vFloat64 q => 13 * (encInt q.num * 100003 + q.den) + 3
  | .vString s => 13 * encString s + 4
  | .vBool b => 13 * (cond b 1 0) + 5
  | .vTimestamp t => 13 * encInt t + 6
  | .vNull => 7

/-- Modelled from the spec: the stable hash of the concatenated sharding-key
encoding (§4.3). -/
def hashValues (vs : List Value) : Nat :=
  vs.foldl (fun h v => h * 1000003 + encodeValue v) 0

/-- The value a row carries for a named column, in the canonical column order
of the schema (`vNull` when the column or position is missing). -/
def cellOf (t : TableSchema) (row : Row) (cname : String) : Value :=
  match t.columns.findIdx? (fun c => c.name == cname) with
  | some i => row.getD i Value.vNull
  | none => Value.vNull

/-- The row's values on the schema's sharding-key columns, in sharding-key
order. -/
def shardKeyValues (t : TableSchema) (row : Row) : List Value :=
  t.sharding_columns.map (cellOf t row)

/-- Modelled from the spec: the Shard Router — a pure function mapping a
row's sharding-key values to a shard identifier, a stable hash of the
concatenated sharding-key encoding modulo the configured shard count `S`
(§4.3). -/
def route (t : TableSchema) (S : Nat) (row : Row) : Nat :=
  hashValues (shardKeyValues t row) % S

/-- Modelled from the spec: the store error taxonomy of §7 (transient I/O,
timeout, permanent rejection). -/
inductive StoreError where
  | transientFailure
  | timeout
  | permanentRejection
deriving DecidableEq, Repr

/-- The Shard Store collaborator's state (§6): the ordered rows durably
appended to each shard. -/
abbrev Store := Nat → List Row

/-- Atomic per-shard append of the Shard Store collaborator (§6). -/
def storeAppend (st : Store) (s : Nat) (rows : List Row) : Store :=
  fun u => if u = s then st u ++ rows else st u

/-- Modelled from the spec: the aggregated result of `insert_batch`
(§4.4, §7): `Success`, `PartialCommit{committed_shards,
failed_shards_with_causes}`, `ValidationFailed{violations}`, or the
fail-fast `UnknownTable` of step 1. -/
inductive BatchResult where
  | Success
  | PartialCommit (committed_shards : List Nat)
      (failed_shards : List (Nat × StoreError))
  | ValidationFailed (violations : List ValidationError)
  | UnknownTable
deriving DecidableEq, Repr

/-- Accumulator state of the per-shard commit loop: committed shards, failed
shards with causes, and the store after the appends issued so far. -/
structure CommitState where
  committed : List Nat
  failed : List (Nat × StoreError)
  store : Store

/-- Modelled from the spec: the per-shard commit loop of §4.4 steps 4–5 —
for each non-empty shard group an atomic append is issued; `outcome s = none`
means the append to shard `s` succeeded (possibly after retries, §5), and
`outcome s = some e` means it failed with cause `e` after the retry budget.
A failed shard never rolls back sibling shards. -/
def commitShards (groups : Nat → List Row) (outcome : Nat → Option StoreError) :
    List Nat → Store → CommitState
  | [], st => ⟨[], [], st⟩
  | s :: rest, st =>
    if (groups s).isEmpty then commitShards groups outcome rest st
    else
      match outcome s with
      | none =>
        let cs := commitShards groups outcome rest (storeAppend st s (groups s))
        ⟨s :: cs.committed, cs.failed, cs.store⟩
      | some e =>
        let cs := commitShards groups outcome rest st
        ⟨cs.committed, (s, e) :: cs.failed, cs.store⟩

/-- Add one row to its shard's group, preserving arrival order. -/
def addToGroups (g : Nat → List Row) (s : Nat) (r : Row) : Nat → List Row :=
  fun u => if u = s then g u ++ [r] else g u

/-- Modelled from the spec: §4.4 step 3 — route every validated row to a
shard and group rows into per-shard sub-batches preserving original relative
order within each shard (a single left-to-right pass over the batch). -/
def shardGroups (f : Row → Nat) (batch : Batch) : Nat → List Row :=
  batch.foldl (fun g r => addToGroups g (f r) r) (fun _ => [])

/-- Modelled from the spec: the Batch Ingestion Pipeline `insert_batch`
(§4.4): resolve the table (fail fast with `UnknownTable`), validate every
row eagerly (any violation fails the call with `ValidationFailed` and
nothing is routed or committed), partition the validated rows by the Shard
Router, issue per-shard commits, and aggregate — `Success` only if every
shard commit succeeded, otherwise `PartialCommit` with committed shards kept
(no cross-shard rollback). The notebooks call
`ctx.batch_insert(resolved_table_schema, rows)`. -/
def insert_batch (db : Database) (store : Store) (outcome : Nat → Option StoreError)
    (S : Nat) (tname : String) (batch : Batch) : BatchResult × Store :=
  match get_table db tname with
  | Except.error _ => (BatchResult.UnknownTable, store)
  | Except.ok schema =>
    let violations := validateBatch schema batch
    if violations.isEmpty then
      let groups := shardGroups (fun r => route schema S r) batch
      let cs := commitShards groups outcome (List.range S) store
      if cs.failed.isEmpty then (BatchResult.Success, cs.store)
      else (BatchResult.PartialCommit cs.committed cs.failed, cs.store)
    else (BatchResult.ValidationFailed violations, store)

/-- A session context bound to one open database (source: `EventContext`
obtained from `EventContext.get_event_context(DB_NAME)`), with the flag
recording whether the scoped `with`-block that acquired it is still open. -/
structure EventContext where
  dbName : String
  catalog : Database
  isOpen : Bool
deriving Repr

/-- Modelled from the spec: acquiring the scoped session context
(`EventContext.get_event_context`, §5/§9 scoped resource). -/
def get_event_context (dbName : String) (catalog : Database) : EventContext :=
  ⟨dbName, catalog, true⟩

/-- Modelled from the spec: leaving the `with`-block releases (closes) the
scoped session on every exit path (§5/§9). -/
def exitContext (ctx : EventContext) : EventContext :=
  ⟨ctx.dbName, ctx.catalog, false⟩

/-- Modelled from the spec: `get_names_of_tables` is the notebooks' name for
the catalog read `list_tables` — a lock-free snapshot of the current
registered state (§4.1, §5), a function of the catalog alone; it does not
consult the session-scope flag, matching the notebook cell that calls it on
`ctx` after the `with`-block has closed and receives the table names. -/
def get_names_of_tables (ctx : EventContext) : Except CatalogError (List String) :=
  Except.ok (list_tables ctx.catalog)

/-! Concrete configuration objects of the notebooks, embedded literally. -/

/-- The `IOT_TEMPERATURE` table schema registered by the table-creation
notebook: six non-nullable columns, sharding key `(deviceID, sensorID)`,
primary key `(deviceID, sensorID, ts)`. -/
def iotSchema : TableSchema :=
  ⟨"IOT_TEMPERATURE",
   [⟨"deviceID", ColumnType.Int32, false⟩,
    ⟨"sensorID", ColumnType.Int32, false⟩,
    ⟨"ts", ColumnType.Int64, false⟩,
    ⟨"ambient_temp", ColumnType.Float64, false⟩,
    ⟨"power", ColumnType.Float64, false⟩,
    ⟨"temperature", ColumnType.Float64, false⟩],
   ["deviceID", "sensorID"],
   ["deviceID", "sensorID", "ts"]⟩

/-- The index specification defined by the table-creation notebook:
equality columns `(deviceID, sensorID)`, sort `ts` descending nulls last,
include `temperature`. -/
def iotIndex : IndexSpecification :=
  ⟨"IOT_TEMPERATUREIndex", iotSchema,
   ["deviceID", "sensorID"],
   [⟨"ts", ColumnOrder.DESCENDING_NULLS_LAST⟩],
   ["temperature"]⟩

/-- The fresh `TESTDB` database created by the notebook. -/
def emptyDB : Database := ⟨"TESTDB", []⟩

/-- The catalog after the notebook's `create_table_with_index` call. -/
def iotDB : Database := (create_table_with_index emptyDB iotSchema iotIndex).1

/-- The empty shard store. -/
def store0 : Store := fun _ => []

/-- The spec §8 example row `(1, 12, 1000, 16.0, 50.0, 22.3)`. -/
def exRow1 : Row :=
  [Value.vInt32 1, Value.vInt32 12, Value.vInt64 1000,
   Value.vFloat64 16, Value.vFloat64 50, Value.vFloat64 (223 / 10)]

/-- The spec §8 example row `(1, 12, 1001, 16.1, 50.2, 22.4)`. -/
def exRow2 : Row :=
  [Value.vInt32 1, Value.vInt32 12, Value.vInt64 1001,
   Value.vFloat64 (161 / 10), Value.vFloat64 (251 / 5), Value.vFloat64 (112 / 5)]

/-! Helper lemmas about the catalog operations. -/

theorem register_table_none_iff (db : Database) (t : TableSchema) :
    (register_table db t).2 = none ↔
      lookupTable db t.name = none ∧ validSchema t = true := by
  unfold register_table
  rcases h : lookupTable db t.name with _ | e
  · by_cases hv : validSchema t = true <;> simp [h, hv]
  · simp [h]

theorem register_table_success_state (db : Database) (t : TableSchema)
    (h : (register_table db t).2 = none) :
    (register_table db t).1 = ⟨db.name, db.tables ++ [⟨t, []⟩]⟩ := by
  rcases (register_table_none_iff db t).mp h with ⟨h1, h2⟩
  unfold register_table
  simp [h1, h2]

theorem lookupTable_append_singleton (db : Database) (t : TableSchema)
    (h : lookupTable db t.name = none) :
    lookupTable ⟨db.name, db.tables ++ [⟨t, []⟩]⟩ t.name = some ⟨t, []⟩ := by
  unfold lookupTable at h ⊢
  simp [List.find?_append, h, List.find?]

theorem register_table_duplicate (db : Database) (t2 : TableSchema)
    (entry : TableEntry) (h : lookupTable db t2.name = some entry) :
    register_table db t2 = (db, some CatalogError.DuplicateTable) := by
  unfold register_table
  simp [h]

theorem get_table_after_register (db : Database) (t : TableSchema)
    (h : (register_table db t).2 = none) :
    get_table (register_table db t).1 t.name = Except.ok t := by
  rcases (register_table_none_iff db t).mp h with ⟨h1, _⟩
  rw [register_table_success_state db t h]
  unfold get_table
  rw [lookupTable_append_singleton db t h1]

theorem drop_table_after_register (db : Database) (t : TableSchema)
    (h : (register_table db t).2 = none) :
    drop_table (register_table db t).1 t.name = (db, none) := by
  rcases (register_table_none_iff db t).mp h with ⟨h1, _⟩
  rw [register_table_success_state db t h]
  unfold drop_table
  rw [lookupTable_append_singleton db t h1]
  have hkeep : db.tables.filter (fun e => !(e.schema.name == t.name)) = db.tables := by
    apply List.filter_eq_self.mpr
    intro a ha
    have := List.find?_eq_none.mp h1 a ha
    simp only [Bool.not_eq_true'] at this ⊢
    simp [this]
  simp [List.filter_append, hkeep, List.filter]

/-- C4: for every catalog state in which `register_table(schema)` succeeds, a
subsequent `get_table` with that schema's name returns a schema equal to the
one registered. -/
theorem register_then_get_roundtrip (db : Database) (t : TableSchema)
    (h : (register_table db t).2 = none) :
    get_table (register_table db t).1 t.name = Except.ok t :=
  get_table_after_register db t h

theorem register_then_get_roundtrip_witness :
    (register_table emptyDB iotSchema).2 = none ∧
    get_table (register_table emptyDB iotSchema).1 "IOT_TEMPERATURE"
      = Except.ok iotSchema :=
  ⟨rfl, register_then_get_roundtrip emptyDB iotSchema rfl⟩

/-- C5: registering twice under the same table name fails the second time
with `DuplicateTable`, leaves the catalog of the first registration
unchanged, and `get_table` still returns the originally registered schema
(the first call's success is the hypothesis under which "succeeds the first
time" holds for an arbitrary catalog state). -/
theorem register_twice_duplicate (db : Database) (t t2 : TableSchema)
    (h : (register_table db t).2 = none) (hname : t2.name = t.name) :
    register_table (register_table db t).1 t2
        = ((register_table db t).1, some CatalogError.DuplicateTable) ∧
    get_table (register_table db t).1 t.name = Except.ok t := by
  rcases (register_table_none_iff db t).mp h with ⟨h1, _⟩
  refine ⟨?_, get_table_after_register db t h⟩
  have hup := register_table_success_state db t h
  have hlk : lookupTable (register_table db t).1 t2.name = some ⟨t, []⟩ := by
    rw [hname, hup]
    exact lookupTable_append_singleton db t h1
  exact register_table_duplicate (register_table db t).1 t2 ⟨t, []⟩ hlk

/-- C5 counterexample: the claim quantifies over every catalog state, but
over a catalog that already contains a table of the same name the first of
the two `register_table` calls does not succeed — it already fails with
`DuplicateTable` — so "succeeds the first time" does not hold for every
catalog state, only for those in which the first registration succeeds. -/
theorem register_twice_duplicate_counterexample :
    (register_table iotDB iotSchema).2 = some CatalogError.DuplicateTable ∧
    (register_table iotDB iotSchema).2 ≠ none :=
  ⟨rfl, by decide⟩

theorem register_twice_duplicate_witness :
    (register_table emptyDB iotSchema).2 = none ∧
    register_table (register_table emptyDB iotSchema).1 iotSchema
        = ((register_table emptyDB iotSchema).1, some CatalogError.DuplicateTable) :=
  ⟨rfl, (register_twice_duplicate emptyDB iotSchema iotSchema rfl rfl).1⟩

/-- C2: `create_table_with_index` is all-or-nothing — if index registration
fails after the table registration succeeded, the table registration is
rolled back: the call returns the catalog exactly as it was before the call,
and the table is absent from that catalog (`get_table` fails with
`UnknownTable`). -/
theorem create_table_with_index_rollback (db : Database) (t : TableSchema)
    (spec : IndexSpecification) (e : CatalogError)
    (h1 : (register_table db t).2 = none)
    (h2 : (register_index (register_table db t).1 spec).2 = some e) :
    create_table_with_index db t spec = (db, some (TableError.catalog e)) ∧
    get_table db t.name = Except.error CatalogError.UnknownTable := by
  rcases (register_table_none_iff db t).mp h1 with ⟨hl, _⟩
  have hdrop := drop_table_after_register db t h1
  constructor
  · rcases hrt : register_table db t with ⟨db1, o1⟩
    rw [hrt] at h1 h2 hdrop
    simp only at h1
    subst h1
    rcases hri : register_index db1 spec with ⟨dbx, oe⟩
    rw [hri] at h2
    simp only at h2 hdrop
    subst h2
    unfold create_table_with_index
    rw [hrt]
    dsimp only
    rw [hri]
    dsimp only
    rw [hdrop]
  · unfold get_table
    rw [hl]

/-- The second table the C2 witness tries to create, whose index name
collides with the already-registered `IOT_TEMPERATUREIndex`. -/
def otherSchema : TableSchema :=
  ⟨"IOT_PRESSURE",
   [⟨"deviceID", ColumnType.Int32, false⟩,
    ⟨"sensorID", ColumnType.Int32, false⟩],
   ["deviceID"],
   ["deviceID", "sensorID"]⟩

/-- An index over `otherSchema` whose name collides with the registered
`IOT_TEMPERATUREIndex`. -/
def otherIndex : IndexSpecification :=
  ⟨"IOT_TEMPERATUREIndex", otherSchema, ["deviceID"], [], ["sensorID"]⟩

theorem create_table_with_index_rollback_witness :
    (register_table iotDB otherSchema).2 = none ∧
    (register_index (register_table iotDB otherSchema).1 otherIndex).2
        = some CatalogError.DuplicateIndex ∧
    create_table_with_index iotDB otherSchema otherIndex
        = (iotDB, some (TableError.catalog CatalogError.DuplicateIndex)) :=
  ⟨rfl, rfl,
   (create_table_with_index_rollback iotDB otherSchema otherIndex
      CatalogError.DuplicateIndex rfl rfl).1⟩

/-- C8: `register_index` rejects an index that neither filters nor orders —
empty `equality_columns` and empty `sort_columns` fail with `InvalidIndex`
for every catalog state, and the catalog is returned unchanged. -/
theorem register_index_empty_rejected (db : Database) (spec : IndexSpecification)
    (h1 : spec.equal_columns = []) (h2 : spec.sort_columns = []) :
    register_index db spec = (db, some CatalogError.InvalidIndex) := by
  unfold register_index filtersOrOrders
  simp [h1, h2]

/-- An index specification that neither filters nor orders. -/
def noopIndex : IndexSpecification :=
  ⟨"NoopIndex", iotSchema, [], [], ["temperature"]⟩

theorem register_index_empty_rejected_witness :
    register_index iotDB noopIndex = (iotDB, some CatalogError.InvalidIndex) :=
  register_index_empty_rejected iotDB noopIndex rfl rfl

/-- C10: a catalog read through the session handle after the scoped
`with`-block has exited still returns the current table names rather than
failing — `get_names_of_tables` is a snapshot read of the catalog alone, so
releasing the scoped session does not invalidate it, and it agrees with the
read before the exit. -/
theorem get_names_after_context_exit (dbName : String) (cat : Database) :
    get_names_of_tables (exitContext (get_event_context dbName cat))
        = Except.ok (list_tables cat) ∧
    get_names_of_tables (exitContext (get_event_context dbName cat))
        = get_names_of_tables (get_event_context dbName cat) :=
  ⟨rfl, rfl⟩

/-- C3: the shard router is deterministic on the sharding key — for every
table schema, shard count `S ≥ 1` and two rows equal on the schema's
sharding-key columns, `route` yields the same shard; in particular the two
§8 example rows, which agree on `(deviceID, sensorID)`, route to the same
shard for every shard count. -/
theorem route_deterministic :
    (∀ (t : TableSchema) (S : Nat) (r1 r2 : Row), 1 ≤ S →
        shardKeyValues t r1 = shardKeyValues t r2 →
        route t S r1 = route t S r2) ∧
    (∀ S : Nat, 1 ≤ S → route iotSchema S exRow1 = route iotSchema S exRow2) := by
  constructor
  · intro t S r1 r2 _ h
    unfold route
    rw [h]
  · intro S _
    have h : shardKeyValues iotSchema exRow1 = shardKeyValues iotSchema exRow2 := rfl
    unfold route
    rw [h]

theorem route_deterministic_witness :
    1 ≤ 4 ∧ route iotSchema 4 exRow1 = route iotSchema 4 exRow2 :=
  ⟨by decide, route_deterministic.2 4 (by decide)⟩

/-! Lemmas about eager batch validation. -/

theorem mem_validateFrom (s : TableSchema) (e : ValidationError) :
    ∀ (batch : Batch) (i : Nat),
      e ∈ validateFrom s i batch ↔
        ∃ j r, batch[j]? = some r ∧ e ∈ validateRow s (i + j) r := by
  intro batch
  induction batch with
  | nil => intro i; simp [validateFrom]
  | cons r rs ih =>
    intro i
    simp only [validateFrom, List.mem_append, ih (i + 1)]
    constructor
    · rintro (h | ⟨j, r', hj, hm⟩)
      · exact ⟨0, r, by simp, by simpa using h⟩
      · refine ⟨j + 1, r', by simpa using hj, ?_⟩
        rw [show i + (j + 1) = (i + 1) + j by omega]
        exact hm
    · rintro ⟨j, r', hj, hm⟩
      cases j with
      | zero =>
        left
        simp only [List.getElem?_cons_zero, Option.some.injEq] at hj
        subst hj
        simpa using hm
      | succ j =>
        right
        refine ⟨j, r', by simpa using hj, ?_⟩
        rw [show (i + 1) + j = i + (j + 1) by omega]
        exact hm

theorem validateBatch_ne_nil (s : TableSchema) (batch : Batch) (j : Nat) (r : Row)
    (hj : batch[j]? = some r) (hr : validateRow s j r ≠ []) :
    validateBatch s batch ≠ [] := by
  rcases List.exists_mem_of_ne_nil _ hr with ⟨e, he⟩
  have hmem : e ∈ validateFrom s 0 batch :=
    (mem_validateFrom s e batch 0).mpr ⟨j, r, hj, by simpa using he⟩
  exact List.ne_nil_of_mem hmem

theorem insert_batch_validation_failed (db : Database) (store : Store)
    (outcome : Nat → Option StoreError) (S : Nat) (tname : String)
    (schema : TableSchema) (batch : Batch)
    (hlook : get_table db tname = Except.ok schema)
    (hviol : validateBatch schema batch ≠ []) :
    insert_batch db store outcome S tname batch
      = (BatchResult.ValidationFailed (validateBatch schema batch), store) := by
  have hne : (validateBatch schema batch).isEmpty = false := by
    cases h : validateBatch schema batch with
    | nil => exact absurd h hviol
    | cons a l => rfl
  unfold insert_batch
  rw [hlook]
  simp [hne]

/-- C1: if at least one row of the batch violates validation, `insert_batch`
fails with `ValidationFailed` carrying the eager collection of violations,
the store state is unchanged (no row is routed or committed), and the
reported violations contain every violating (row, column) of every row of
the batch — not only the first. -/
theorem insert_batch_eager_validation (db : Database) (store : Store)
    (outcome : Nat → Option StoreError) (S : Nat) (tname : String)
    (schema : TableSchema) (batch : Batch)
    (hlook : get_table db tname = Except.ok schema)
    (hbad : ∃ j r, batch[j]? = some r ∧ validateRow schema j r ≠ []) :
    insert_batch db store outcome S tname batch
        = (BatchResult.ValidationFailed (validateBatch schema batch), store) ∧
    ∀ j r e, batch[j]? = some r → e ∈ validateRow schema j r →
      e ∈ validateBatch schema batch := by
  rcases hbad with ⟨j, r, hj, hr⟩
  refine ⟨insert_batch_validation_failed db store outcome S tname schema batch
      hlook (validateBatch_ne_nil schema batch j r hj hr), ?_⟩
  intro j' r' e hj' he
  exact (mem_validateFrom schema e batch 0).mpr ⟨j', r', hj', by simpa using he⟩

/-- A row of the wrong shape for `IOT_TEMPERATURE`: null in the non-nullable
`ts` column. -/
def badRow : Row :=
  [Value.vInt32 1, Value.vInt32 12, Value.vNull,
   Value.vFloat64 16, Value.vFloat64 50, Value.vFloat64 (223 / 10)]

/-- A batch whose second row violates the null constraint. -/
def badBatch : Batch := [exRow1, badRow]

theorem insert_batch_eager_validation_witness :
    get_table iotDB "IOT_TEMPERATURE" = Except.ok iotSchema ∧
    insert_batch iotDB store0 (fun _ => none) 4 "IOT_TEMPERATURE" badBatch
        = (BatchResult.ValidationFailed (validateBatch iotSchema badBatch), store0) :=
  ⟨rfl,
   (insert_batch_eager_validation iotDB store0 (fun _ => none) 4 "IOT_TEMPERATURE"
      iotSchema badBatch rfl ⟨1, badRow, rfl, by decide⟩).1⟩

/-! Null-constraint lemmas for an all-non-nullable schema. -/

theorem null_cell_mem_filterMap (cols : List Column) (row : Row) (i j : Nat)
    (c : Column) (hnn : ∀ d ∈ cols, d.nullable = false)
    (hrow : row[j]? = some Value.vNull) (hcol : cols[j]? = some c) :
    ValidationError.NullConstraintError i c.name
      ∈ (cols.zip row).filterMap (fun p => cellError i p.1 p.2) := by
  apply List.mem_filterMap.mpr
  refine ⟨(c, Value.vNull), ?_, ?_⟩
  · exact List.getElem?_mem (List.getElem?_zip_eq_some.mpr ⟨hcol, hrow⟩)
  · have hc : c.nullable = false := hnn c (List.getElem?_mem hcol)
    simp [cellError, hc]

theorem validateRow_null_ne_nil (t : TableSchema) (i : Nat) (row : Row)
    (hnn : ∀ d ∈ t.columns, d.nullable = false)
    (hmem : Value.vNull ∈ row) : validateRow t i row ≠ [] := by
  unfold validateRow
  by_cases hlen : row.length = t.columns.length
  · rw [if_pos hlen]
    rcases List.mem_iff_getElem?.mp hmem with ⟨j, hj⟩
    have hjlt : j < t.columns.length := by
      rcases List.getElem?_eq_some_iff.mp hj with ⟨hlt, _⟩
      omega
    have hcol : t.columns[j]? = some t.columns[j] := by
      simp [hjlt]
    exact List.ne_nil_of_mem
      (null_cell_mem_filterMap t.columns row i j t.columns[j] hnn hj hcol)
  · rw [if_neg hlen]
    simp

/-- C9: every column of the registered `IOT_TEMPERATURE` schema is declared
non-nullable; a well-shaped row with null at position `j` fails validation
with `NullConstraintError` naming the column at that position; and a batch
containing a null anywhere is never committed to this table — the call
returns `ValidationFailed` and the store state is unchanged. -/
theorem iot_schema_null_safety :
    (∀ c ∈ iotSchema.columns, c.nullable = false) ∧
    (∀ (i j : Nat) (row : Row) (c : Column),
        row.length = iotSchema.columns.length →
        row[j]? = some Value.vNull →
        iotSchema.columns[j]? = some c →
        ValidationError.NullConstraintError i c.name ∈ validateRow iotSchema i row) ∧
    (∀ (db : Database) (store : Store) (outcome : Nat → Option StoreError)
        (S : Nat) (batch : Batch),
        get_table db "IOT_TEMPERATURE" = Except.ok iotSchema →
        (∃ row ∈ batch, Value.vNull ∈ row) →
        insert_batch db store outcome S "IOT_TEMPERATURE" batch
          = (BatchResult.ValidationFailed (validateBatch iotSchema batch), store)) := by
  have hnn : ∀ c ∈ iotSchema.columns, c.nullable = false := by decide
  refine ⟨hnn, ?_, ?_⟩
  · intro i j row c hlen hrow hcol
    unfold validateRow
    rw [if_pos hlen]
    exact null_cell_mem_filterMap iotSchema.columns row i j c hnn hrow hcol
  · intro db store outcome S batch hlook hnull
    rcases hnull with ⟨row, hrb, hvn⟩
    rcases List.mem_iff_getElem?.mp hrb with ⟨j, hj⟩
    exact insert_batch_validation_failed db store outcome S "IOT_TEMPERATURE"
      iotSchema batch hlook
      (validateBatch_ne_nil iotSchema batch j row hj
        (validateRow_null_ne_nil iotSchema j row hnn hvn))

/-- A batch of one row with a null `ts` cell, for the C9 witness. -/
def nullBatch : Batch := [badRow]

theorem iot_schema_null_safety_witness :
    (ValidationError.NullConstraintError 0 "ts" ∈ validateRow iotSchema 0 badRow) ∧
    insert_batch iotDB store0 (fun _ => none) 4 "IOT_TEMPERATURE" nullBatch
        = (BatchResult.ValidationFailed (validateBatch iotSchema nullBatch), store0) :=
  ⟨iot_schema_null_safety.2.1 0 2 badRow ⟨"ts", ColumnType.Int64, false⟩
      (by decide) rfl rfl,
   iot_schema_null_safety.2.2 iotDB store0 (fun _ => none) 4 nullBatch rfl
      ⟨badRow, by simp [nullBatch], by decide⟩⟩

/-! Lemmas about shard grouping and the per-shard commit loop. -/

theorem foldl_addToGroups (f : Row → Nat) :
    ∀ (batch : Batch) (g : Nat → List Row) (s : Nat),
      (batch.foldl (fun g r => addToGroups g (f r) r) g) s
        = g s ++ batch.filter (fun r => f r == s) := by
  intro batch
  induction batch with
  | nil => intro g s; simp
  | cons r rs ih =>
    intro g s
    simp only [List.foldl_cons, List.filter_cons]
    rw [ih (addToGroups g (f r) r) s]
    by_cases h : f r = s
    · have hb : (f r == s) = true := by simp [h]
      have ha : addToGroups g (f r) r s = g s ++ [r] := by
        simp [addToGroups, h.symm]
      rw [hb, ha]
      simp
    · have hb : (f r == s) = false := by simp [h]
      have ha : addToGroups g (f r) r s = g s := by
        have : ¬(s = f r) := fun hc => h hc.symm
        simp [addToGroups, this]
      rw [hb, ha]
      simp

theorem shardGroups_eq_filter (f : Row → Nat) (batch : Batch) (s : Nat) :
    shardGroups f batch s = batch.filter (fun r => f r == s) := by
  unfold shardGroups
  rw [foldl_addToGroups f batch (fun _ => []) s]
  simp

theorem commitShards_committed (groups : Nat → List Row)
    (outcome : Nat → Option StoreError) :
    ∀ (L : List Nat) (st : Store),
      (commitShards groups outcome L st).committed
        = L.filter (fun s => !(groups s).isEmpty && (outcome s).isNone) := by
  intro L
  induction L with
  | nil => intro st; rfl
  | cons s rest ih =>
    intro st
    by_cases hg : (groups s).isEmpty
    · simp only [commitShards, if_pos hg, List.filter_cons, hg]
      simp [ih]
    · cases ho : outcome s with
      | none =>
        simp only [commitShards, if_neg hg, ho, List.filter_cons]
        simp only [Bool.not_eq_true] at hg
        simp [hg, ho, ih]
      | some e =>
        simp only [commitShards, if_neg hg, ho, List.filter_cons]
        simp only [Bool.not_eq_true] at hg
        simp [hg, ho, ih]

theorem commitShards_failed (groups : Nat → List Row)
    (outcome : Nat → Option StoreError) :
    ∀ (L : List Nat) (st : Store),
      (commitShards groups outcome L st).failed
        = L.filterMap (fun s =>
            if (groups s).isEmpty then none
            else (outcome s).map (fun e => (s, e))) := by
  intro L
  induction L with
  | nil => intro st; rfl
  | cons s rest ih =>
    intro st
    by_cases hg : (groups s).isEmpty
    · simp only [commitShards, if_pos hg, List.filterMap_cons, hg]
      simp [ih]
    · cases ho : outcome s with
      | none =>
        simp only [commitShards, if_neg hg, ho, List.filterMap_cons]
        simp [hg, ho, ih]
      | some e =>
        simp only [commitShards, if_neg hg, ho, List.filterMap_cons]
        simp [hg, ho, ih]

theorem commitShards_store (groups : Nat → List Row)
    (outcome : Nat → Option StoreError) :
    ∀ (L : List Nat), L.Nodup → ∀ (st : Store) (u : Nat),
      (commitShards groups outcome L st).store u
        = if u ∈ L ∧ groups u ≠ [] ∧ outcome u = none
          then st u ++ groups u else st u := by
  intro L
  induction L with
  | nil => intro _ st u; simp [commitShards]
  | cons s rest ih =>
    intro hnd st u
    have hsni : s ∉ rest := (List.nodup_cons.mp hnd).1
    have hnd' : rest.Nodup := (List.nodup_cons.mp hnd).2
    by_cases hg : (groups s).isEmpty
    · have hgs : groups s = [] := List.isEmpty_iff.mp hg
      simp only [commitShards, if_pos hg]
      rw [ih hnd' st u]
      by_cases hu : u = s
      · subst hu
        simp [hgs]
      · simp [List.mem_cons, hu]
    · cases ho : outcome s with
      | none =>
        simp only [commitShards, if_neg hg, ho]
        rw [ih hnd' (storeAppend st s (groups s)) u]
        by_cases hu : u = s
        · subst hu
          have hgs : groups u ≠ [] := by
            simpa [List.isEmpty_iff] using hg
          simp [hsni, storeAppend, hgs, ho]
        · simp [storeAppend, hu, List.mem_cons]
      | some e =>
        simp only [commitShards, if_neg hg, ho]
        rw [ih hnd' st u]
        by_cases hu : u = s
        · subst hu
          simp [hsni, ho]
        · simp [List.mem_cons, hu]

theorem insert_batch_valid_eq (db : Database) (store : Store)
    (outcome : Nat → Option StoreError) (S : Nat) (tname : String)
    (schema : TableSchema) (batch : Batch)
    (hlook : get_table db tname = Except.ok schema)
    (hvalid : validateBatch schema batch = []) :
    insert_batch db store outcome S tname batch
      = (if (commitShards (shardGroups (fun r => route schema S r) batch)
              outcome (List.range S) store).failed.isEmpty
         then (BatchResult.Success,
               (commitShards (shardGroups (fun r => route schema S r) batch)
                  outcome (List.range S) store).store)
         else (BatchResult.PartialCommit
                 (commitShards (shardGroups (fun r => route schema S r) batch)
                    outcome (List.range S) store).committed
                 (commitShards (shardGroups (fun r => route schema S r) batch)
                    outcome (List.range S) store).failed,
               (commitShards (shardGroups (fun r => route schema S r) batch)
                  outcome (List.range S) store).store)) := by
  unfold insert_batch
  rw [hlook]
  simp [hvalid]

theorem route_lt (schema : TableSchema) (S : Nat) (hS : 1 ≤ S) (r : Row) :
    route schema S r < S :=
  Nat.mod_lt _ (by omega)

theorem filter_route_eq_nil_of_ge (schema : TableSchema) (S : Nat) (hS : 1 ≤ S)
    (batch : Batch) (u : Nat) (hu : ¬ u < S) :
    batch.filter (fun r => route schema S r == u) = [] := by
  apply List.filter_eq_nil_iff.mpr
  intro r _
  have := route_lt schema S hS r
  simp only [beq_iff_eq]
  omega

/-- C6: partitioning is order-preserving within each shard — for a fully
valid batch whose per-shard commits all succeed, `insert_batch` returns
`Success` and appends to each shard exactly the subsequence of the original
batch consisting of the rows routed to that shard, in their original
relative order (the `List.filter` of the batch by the router). -/
theorem insert_batch_order_preserving (db : Database) (store : Store)
    (outcome : Nat → Option StoreError) (S : Nat) (tname : String)
    (schema : TableSchema) (batch : Batch)
    (hlook : get_table db tname = Except.ok schema) (hS : 1 ≤ S)
    (hvalid : validateBatch schema batch = [])
    (hall : ∀ s, s < S → batch.filter (fun r => route schema S r == s) ≠ [] →
        outcome s = none) :
    (insert_batch db store outcome S tname batch).1 = BatchResult.Success ∧
    ∀ s, (insert_batch db store outcome S tname batch).2 s
        = store s ++ batch.filter (fun r => route schema S r == s) := by
  have hgf : ∀ s, shardGroups (fun r => route schema S r) batch s
      = batch.filter (fun r => route schema S r == s) :=
    fun s => shardGroups_eq_filter _ batch s
  have hfail : (commitShards (shardGroups (fun r => route schema S r) batch)
      outcome (List.range S) store).failed = [] := by
    rw [commitShards_failed]
    apply List.filterMap_eq_nil_iff.mpr
    intro s hs
    by_cases hg : (shardGroups (fun r => route schema S r) batch s).isEmpty
    · rw [if_pos hg]
    · rw [if_neg hg]
      have hne : batch.filter (fun r => route schema S r == s) ≠ [] := by
        rw [← hgf s]
        simpa [List.isEmpty_iff] using hg
      rw [hall s (List.mem_range.mp hs) hne]
      rfl
  have hred := insert_batch_valid_eq db store outcome S tname schema batch hlook hvalid
  rw [hfail] at hred
  simp only [List.isEmpty_nil, if_true] at hred
  constructor
  · rw [hred]
  · intro u
    rw [hred]
    dsimp only
    rw [commitShards_store _ outcome (List.range S) (List.nodup_range S) store u]
    by_cases hu : u < S
    · by_cases hne : batch.filter (fun r => route schema S r == u) = []
      · have hcond : ¬ (u ∈ List.range S ∧
            shardGroups (fun r => route schema S r) batch u ≠ [] ∧
            outcome u = none) := by
          rintro ⟨_, hgne, _⟩
          exact hgne (by rw [hgf u]; exact hne)
        rw [if_neg hcond, hne, List.append_nil]
      · have hcond : u ∈ List.range S ∧
            shardGroups (fun r => route schema S r) batch u ≠ [] ∧
            outcome u = none :=
          ⟨List.mem_range.mpr hu, by rw [hgf u]; exact hne, hall u hu hne⟩
        rw [if_pos hcond, hgf u]
    · have hnil := filter_route_eq_nil_of_ge schema S hS batch u hu
      have hcond : ¬ (u ∈ List.range S ∧
          shardGroups (fun r => route schema S r) batch u ≠ [] ∧
          outcome u = none) := by
        rintro ⟨hmem, _, _⟩
        exact hu (List.mem_range.mp hmem)
      rw [if_neg hcond, hnil, List.append_nil]

theorem insert_batch_order_preserving_witness :
    (insert_batch iotDB store0 (fun _ => none) 1 "IOT_TEMPERATURE"
        [exRow1, exRow2]).1 = BatchResult.Success ∧
    (insert_batch iotDB store0 (fun _ => none) 1 "IOT_TEMPERATURE"
        [exRow1, exRow2]).2 0
      = store0 0 ++ [exRow1, exRow2].filter (fun r => route iotSchema 1 r == 0) := by
  have h := insert_batch_order_preserving iotDB store0 (fun _ => none) 1
    "IOT_TEMPERATURE" iotSchema [exRow1, exRow2] rfl (by decide) (by decide)
    (fun _ _ _ => rfl)
  exact ⟨h.1, h.2 0⟩

/-- C7: commit aggregation and no cross-shard rollback — for a fully valid
batch, `insert_batch` returns `Success` exactly when no non-empty shard
commit fails; if one or more per-shard commits fail after the retry policy,
it returns `PartialCommit` listing exactly the committed shards and the
failed shards with their causes; the rows appended to every successful shard
remain appended, and the state of a failed shard (and of every shard the
batch does not touch) is unchanged. -/
theorem insert_batch_partial_commit (db : Database) (store : Store)
    (outcome : Nat → Option StoreError) (S : Nat) (tname : String)
    (schema : TableSchema) (batch : Batch)
    (hlook : get_table db tname = Except.ok schema) (hS : 1 ≤ S)
    (hvalid : validateBatch schema batch = []) :
    ((insert_batch db store outcome S tname batch).1 = BatchResult.Success ↔
      (List.range S).filterMap (fun s =>
        if (batch.filter (fun r => route schema S r == s)).isEmpty then none
        else (outcome s).map (fun e => (s, e))) = []) ∧
    ((List.range S).filterMap (fun s =>
        if (batch.filter (fun r => route schema S r == s)).isEmpty then none
        else (outcome s).map (fun e => (s, e))) ≠ [] →
      (insert_batch db store outcome S tname batch).1
        = BatchResult.PartialCommit
            ((List.range S).filter (fun s =>
              !(batch.filter (fun r => route schema S r == s)).isEmpty &&
                (outcome s).isNone))
            ((List.range S).filterMap (fun s =>
              if (batch.filter (fun r => route schema S r == s)).isEmpty then none
              else (outcome s).map (fun e => (s, e))))) ∧
    (∀ s, outcome s = none →
      (insert_batch db store outcome S tname batch).2 s
        = store s ++ batch.filter (fun r => route schema S r == s)) ∧
    (∀ s, outcome s ≠ none →
      (insert_batch db store outcome S tname batch).2 s = store s) := by
  have hgf : ∀ s, shardGroups (fun r => route schema S r) batch s
      = batch.filter (fun r => route schema S r == s) :=
    fun s => shardGroups_eq_filter _ batch s
  have hfailed : (commitShards (shardGroups (fun r => route schema S r) batch)
      outcome (List.range S) store).failed
      = (List.range S).filterMap (fun s =>
          if (batch.filter (fun r => route schema S r == s)).isEmpty then none
          else (outcome s).map (fun e => (s, e))) := by
    rw [commitShards_failed]
    apply List.filterMap_congr
    intro s _
    rw [hgf s]
  have hcommitted : (commitShards (shardGroups (fun r => route schema S r) batch)
      outcome (List.range S) store).committed
      = (List.range S).filter (fun s =>
          !(batch.filter (fun r => route schema S r == s)).isEmpty &&
            (outcome s).isNone) := by
    rw [commitShards_committed]
    apply List.filter_congr
    intro s _
    rw [hgf s]
  have hred := insert_batch_valid_eq db store outcome S tname schema batch hlook hvalid
  have hstore := commitShards_store (shardGroups (fun r => route schema S r) batch)
    outcome (List.range S) (List.nodup_range S) store
  have h2 : (insert_batch db store outcome S tname batch).2
      = (commitShards (shardGroups (fun r => route schema S r) batch)
          outcome (List.range S) store).store := by
    rw [hred]
    by_cases hc : (commitShards (shardGroups (fun r => route schema S r) batch)
        outcome (List.range S) store).failed.isEmpty
    · rw [if_pos hc]
    · rw [if_neg hc]
  refine ⟨?_, ?_, ?_, ?_⟩
  · by_cases hF : (List.range S).filterMap (fun s =>
        if (batch.filter (fun r => route schema S r == s)).isEmpty then none
        else (outcome s).map (fun e => (s, e))) = []
    · have hE : (commitShards (shardGroups (fun r => route schema S r) batch)
          outcome (List.range S) store).failed.isEmpty = true := by
        rw [hfailed, hF]
        rfl
      rw [hred, if_pos hE]
      exact ⟨fun _ => hF, fun _ => rfl⟩
    · have hE : ¬ (commitShards (shardGroups (fun r => route schema S r) batch)
          outcome (List.range S) store).failed.isEmpty = true := by
        rw [hfailed]
        simpa [List.isEmpty_iff] using hF
      rw [hred, if_neg hE]
      constructor
      · intro h
        exact absurd h (by simp)
      · intro h
        exact absurd h hF
  · intro hF
    have hE : ¬ (commitShards (shardGroups (fun r => route schema S r) batch)
        outcome (List.range S) store).failed.isEmpty = true := by
      rw [hfailed]
      simpa [List.isEmpty_iff] using hF
    rw [hred, if_neg hE]
    dsimp only
    rw [hcommitted, hfailed]
  · intro s hs
    rw [h2, hstore s]
    by_cases hu : s < S
    · by_cases hne : batch.filter (fun r => route schema S r == s) = []
      · have hcond : ¬ (s ∈ List.range S ∧
            shardGroups (fun r => route schema S r) batch s ≠ [] ∧
            outcome s = none) := by
          rintro ⟨_, hgne, _⟩
          exact hgne (by rw [hgf s]; exact hne)
        rw [if_neg hcond, hne, List.append_nil]
      · have hcond : s ∈ List.range S ∧
            shardGroups (fun r => route schema S r) batch s ≠ [] ∧
            outcome s = none :=
          ⟨List.mem_range.mpr hu, by rw [hgf s]; exact hne, hs⟩
        rw [if_pos hcond, hgf s]
    · have hnil := filter_route_eq_nil_of_ge schema S hS batch s hu
      have hcond : ¬ (s ∈ List.range S ∧
          shardGroups (fun r => route schema S r) batch s ≠ [] ∧
          outcome s = none) := by
        rintro ⟨hmem, _, _⟩
        exact hu (List.mem_range.mp hmem)
      rw [if_neg hcond, hnil, List.append_nil]
  · intro s hs
    rw [h2, hstore s]
    have hcond : ¬ (s ∈ List.range S ∧
        shardGroups (fun r => route schema S r) batch s ≠ [] ∧
        outcome s = none) := by
      rintro ⟨_, _, ho⟩
      exact hs ho
    rw [if_neg hcond]

theorem insert_batch_partial_commit_witness :
    (insert_batch iotDB store0 (fun _ => some StoreError.timeout) 1
        "IOT_TEMPERATURE" [exRow1]).1
      = BatchResult.PartialCommit [] [(0, StoreError.timeout)] ∧
    (insert_batch iotDB store0 (fun _ => some StoreError.timeout) 1
        "IOT_TEMPERATURE" [exRow1]).2 0 = store0 0 := by
  have h := insert_batch_partial_commit iotDB store0
    (fun _ => some StoreError.timeout) 1 "IOT_TEMPERATURE" iotSchema [exRow1]
    rfl (by decide) (by decide)
  refine ⟨(h.2.1 (by decide)).trans (by decide), h.2.2.2 0 (by decide)⟩

end EventStore

